import Mathlib

/-!
Shallow embedding of the NEAR Semantic Guard contract
(src/contracts/semantic_guard_complete.rs).

Modelling decisions:
- The NEAR runtime environment reads (`env::predecessor_account_id`,
  `env::block_timestamp`, `env::block_index`) are bundled into an explicit
  `Env` value passed to every state-mutating entry point.
- `near_sdk::collections::UnorderedMap` with no removals behaves as an
  association list in insertion order: `insert` overwrites the value in
  place when the key is present (keeping its position) and appends
  otherwise; `values()` enumerates in that order.  It is embedded as
  `List (String × SemanticGuardRecord)` with `listInsert` / `lookupKey`.
- Rust `f64` fields are carried opaquely by this contract (stored and
  returned, never used in arithmetic or comparison), so they are embedded
  as `Rat`; every float literal appearing in the source (0.75, 0.95, ...)
  is exactly representable.
- `u64` / `u32` / `u128` become `Nat`; the one arithmetic operation on
  them (`total_analyses += 1`) is taken modulo `2 ^ 64`.
- `env::sha256` and `near_sdk::bs58` are the platform primitives the
  contract calls; they are embedded as executable SHA-256 and Bitcoin
  alphabet base-58 over byte lists (`List Nat`, each entry < 256).
- `HashMap<String, f64>` (the `distance_matrix` payload) is carried
  opaquely and is embedded as `List (String × Rat)`.
-/

namespace SemanticGuard

/-! ## Byte-level primitives: UTF-8, SHA-256, base-58 -/

/-- UTF-8 encoding of a single Unicode code point, as bytes in `Nat`. -/
def utf8EncodeCharNat (c : Nat) : List Nat :=
  if c < 0x80 then [c]
  else if c < 0x800 then [0xC0 + c / 64, 0x80 + c % 64]
  else if c < 0x10000 then [0xE0 + c / 4096, 0x80 + c / 64 % 64, 0x80 + c % 64]
  else [0xF0 + c / 262144, 0x80 + c / 4096 % 64, 0x80 + c / 64 % 64, 0x80 + c % 64]

/-- UTF-8 byte sequence of a string (what `as_bytes` yields in the source). -/
def strBytes (s : String) : List Nat :=
  s.data.flatMap (fun c => utf8EncodeCharNat c.toNat)

/-- Truncation to a 32-bit word. -/
def w32 (x : Nat) : Nat := x % 2 ^ 32

/-- Right rotation of a 32-bit word by `n` bits. -/
def rotr32 (n x : Nat) : Nat := w32 (x / 2 ^ n + x % 2 ^ n * 2 ^ (32 - n))

/-- Logical right shift by `n` bits. -/
def shr32 (n x : Nat) : Nat := x / 2 ^ n

/-- Bitwise complement on 32 bits. -/
def not32 (x : Nat) : Nat := 0xFFFFFFFF ^^^ x

def bigSigma0 (x : Nat) : Nat := rotr32 2 x ^^^ rotr32 13 x ^^^ rotr32 22 x

def bigSigma1 (x : Nat) : Nat := rotr32 6 x ^^^ rotr32 11 x ^^^ rotr32 25 x

def smallSigma0 (x : Nat) : Nat := rotr32 7 x ^^^ rotr32 18 x ^^^ shr32 3 x

def smallSigma1 (x : Nat) : Nat := rotr32 17 x ^^^ rotr32 19 x ^^^ shr32 10 x

def ch32 (x y z : Nat) : Nat := (x &&& y) ^^^ (not32 x &&& z)

def maj32 (x y z : Nat) : Nat := (x &&& y) ^^^ (x &&& z) ^^^ (y &&& z)

/-- The 64 SHA-256 round constants (FIPS 180-4, written in decimal). -/
def sha256K : List Nat :=
  [1116352408, 1899447441, 3049323471, 3921009573, 961987163,
   1508970993, 2453635748, 2870763221, 3624381080, 310598401,
   607225278, 1426881987, 1925078388, 2162078206, 2614888103,
   3248222580, 3835390401, 4022224774, 264347078, 604807628,
   770255983, 1249150122, 1555081692, 1996064986, 2554220882,
   2821834349, 2952996808, 3210313671, 3336571891, 3584528711,
   113926993, 338241895, 666307205, 773529912, 1294757372,
   1396182291, 1695183700, 1986661051, 2177026350, 2456956037,
   2730485921, 2820302411, 3259730800, 3345764771, 3516065817,
   3600352804, 4094571909, 275423344, 430227734, 506948616,
   659060556, 883997877, 958139571, 1322822218, 1537002063,
   1747873779, 1955562222, 2024104815, 2227730452, 2361852424,
   2428436474, 2756734187, 3204031479, 3329325298]

/-- The SHA-256 initial hash state (FIPS 180-4, written in decimal). -/
def sha256InitH : List Nat :=
  [1779033703, 3144134277, 1013904242, 2773480762,
   1359893119, 2600822924, 528734635, 1541459225]

/-- SHA-256 padding: append 0x80, zeros to 56 mod 64, then the bit length
big-endian on 8 bytes. -/
def sha256Pad (msg : List Nat) : List Nat :=
  let len := msg.length
  let zeros := (120 - (len + 1) % 64) % 64
  msg ++ [0x80] ++ List.replicate zeros 0 ++
    (List.range 8).map (fun i => len * 8 / 2 ^ (8 * (7 - i)) % 256)

/-- Group a byte list into big-endian 32-bit words. -/
def bytesToWords : List Nat → List Nat
  | a :: b :: c :: d :: rest => (((a * 256 + b) * 256 + c) * 256 + d) :: bytesToWords rest
  | _ => []

/-- Extend the message schedule by `fuel` additional words. -/
def extendWords (ws : List Nat) : Nat → List Nat
  | 0 => ws
  | fuel + 1 =>
    let n := ws.length
    let wi := w32 (smallSigma1 (ws.getD (n - 2) 0) + ws.getD (n - 7) 0 +
      smallSigma0 (ws.getD (n - 15) 0) + ws.getD (n - 16) 0)
    extendWords (ws ++ [wi]) fuel

/-- One round of the SHA-256 compression function on the 8-word state. -/
def sha256Round (st : List Nat) (k w : Nat) : List Nat :=
  match st with
  | [a, b, c, d, e, f, g, h] =>
    let t1 := w32 (h + bigSigma1 e + ch32 e f g + k + w)
    let t2 := w32 (bigSigma0 a + maj32 a b c)
    [w32 (t1 + t2), a, b, c, w32 (d + t1), e, f, g]
  | other => other

/-- Process one 64-byte block, updating the 8-word hash state. -/
def sha256Block (h : List Nat) (block : List Nat) : List Nat :=
  let ws := extendWords (bytesToWords block) 48
  let st := (List.zip sha256K ws).foldl (fun st kw => sha256Round st kw.1 kw.2) h
  List.zipWith (fun x y => w32 (x + y)) h st

/-- Split a byte list into 64-byte chunks. -/
def chunks64 (l : List Nat) : List (List Nat) :=
  if h : l = [] then []
  else l.take 64 :: chunks64 (l.drop 64)
termination_by l.length
decreasing_by
  simp [List.length_drop]
  exact List.length_pos.mpr h

/-- SHA-256 of a byte list, as a 32-byte list (the `env::sha256` host
function). -/
def sha256 (msg : List Nat) : List Nat :=
  let final := (chunks64 (sha256Pad msg)).foldl sha256Block sha256InitH
  final.flatMap (fun w => [w / 2 ^ 24 % 256, w / 2 ^ 16 % 256, w / 2 ^ 8 % 256, w % 256])

/-- The Bitcoin base-58 alphabet used by `near_sdk::bs58`. -/
def base58Alphabet : List Char :=
  "123456789ABCDEFGHJKLMNPQRSTUVWXYZabcdefghijkmnopqrstuvwxyz".data

/-- Base-58 digit expansion of a natural number (most significant first). -/
def natToBase58 (n : Nat) : List Char :=
  if h : n = 0 then []
  else natToBase58 (n / 58) ++ [base58Alphabet.getD (n % 58) '1']
termination_by n
decreasing_by
  exact Nat.div_lt_self (Nat.pos_of_ne_zero h) (by decide)

/-- Base-58 encoding of a byte list: one leading '1' per leading zero byte,
then the big-endian value in base 58 (`bs58::encode(...).into_string()`). -/
def bs58Encode (bytes : List Nat) : String :=
  let lead := (bytes.takeWhile (fun b => b == 0)).length
  let n := bytes.foldl (fun acc b => acc * 256 + b) 0
  String.mk (List.replicate lead '1' ++ natToBase58 n)

/-! ## Data model (mirrors the Rust structs) -/

/-- Mirrors `MessageEmbedding`. -/
structure MessageEmbedding where
  vector : List Rat
  model_name : String
  embedding_hash : String
  semantic_hash : String
  timestamp : Nat
deriving DecidableEq, Repr

/-- Mirrors `OutlierDistance`. -/
structure OutlierDistance where
  to_result : String
  distance : Rat
  threshold_exceeded_by : Rat
deriving DecidableEq, Repr

/-- Mirrors the `OutlierSeverity` enum. -/
inductive OutlierSeverity where
  | Low
  | Medium
  | High
  | Critical
deriving DecidableEq, Repr

/-- Mirrors the `VerificationStatus` enum. -/
inductive VerificationStatus where
  | Pending
  | Verified
  | Disputed
  | Flagged
deriving DecidableEq, Repr

/-- Mirrors `SemanticOutlier`. -/
structure SemanticOutlier where
  result_id : String
  reason : String
  severity : OutlierSeverity
  max_distance : Rat
  source_type : String
  verification_status : VerificationStatus
  outlier_distances : List OutlierDistance
deriving DecidableEq, Repr

/-- Mirrors `SemanticAnalysisResult`. -/
structure SemanticAnalysisResult where
  center_of_gravity : String
  outliers : List SemanticOutlier
  distance_matrix : List (String × Rat)
  embeddings : List MessageEmbedding
  threshold_used : Rat
  processing_time_ms : Nat
  consensus_score : Rat
deriving DecidableEq, Repr

/-- Mirrors `SearchResult`. -/
structure SearchResult where
  id : String
  title : String
  snippet : String
  url : String
  rank : Nat
  source_type : String
  semantic_hash : String
  trustworthiness_score : Rat
deriving DecidableEq, Repr

/-- Mirrors `AnalysisMetadata`. -/
structure AnalysisMetadata where
  model_version : String
  algorithm_version : String
  processing_node : String
  verification_count : Nat
  dispute_count : Nat
  consensus_reached : Bool
deriving DecidableEq, Repr

/-- Mirrors `SemanticGuardRecord`. -/
structure SemanticGuardRecord where
  id : String
  query : String
  results : List SearchResult
  semantic_analysis : SemanticAnalysisResult
  submitter : String
  timestamp : Nat
  block_height : Nat
  metadata : AnalysisMetadata
deriving DecidableEq, Repr

/-- Mirrors `ContractMetadata`. -/
structure ContractMetadata where
  version : String
  total_analyses : Nat
  total_staked : Nat
  consensus_threshold : Rat
deriving DecidableEq, Repr

/-- Mirrors the `SemanticGuardContract` state: the `UnorderedMap` of
analyses (as an insertion-ordered association list) plus the contract
metadata. -/
structure SemanticGuardContract where
  analyses : List (String × SemanticGuardRecord)
  contract_metadata : ContractMetadata
deriving DecidableEq, Repr

/-- The NEAR runtime values read by the entry points. -/
structure Env where
  predecessor_account_id : String
  block_timestamp : Nat
  block_index : Nat
deriving DecidableEq, Repr

/-! ## UnorderedMap embedding -/

/-- Insert with upsert semantics as `UnorderedMap::insert` behaves with no
prior removals: overwrite in place if the key is present, append
otherwise. -/
def listInsert (l : List (String × SemanticGuardRecord)) (k : String)
    (v : SemanticGuardRecord) : List (String × SemanticGuardRecord) :=
  match l with
  | [] => [(k, v)]
  | (k2, v2) :: rest =>
    if k2 = k then (k, v) :: rest else (k2, v2) :: listInsert rest k v

/-- Point lookup, as `UnorderedMap::get`. -/
def lookupKey (l : List (String × SemanticGuardRecord)) (k : String) :
    Option SemanticGuardRecord :=
  match l with
  | [] => none
  | (k2, v) :: rest => if k2 = k then some v else lookupKey rest k

/-- Number of entries stored under key `k`. -/
def countKey (l : List (String × SemanticGuardRecord)) (k : String) : Nat :=
  (l.filter (fun p => p.1 = k)).length

/-! ## Contract operations -/

/-- Mirrors `SemanticGuardContract::new`. -/
def SemanticGuardContract.new : SemanticGuardContract :=
  { analyses := []
    contract_metadata :=
      { version := "1.0.0"
        total_analyses := 0
        total_staked := 0
        consensus_threshold := 0.75 } }

/-- Mirrors `generate_analysis_id`: sha256 over the concatenation of query,
decimal block timestamp and predecessor account id, base-58 encoded. -/
def generate_analysis_id (query : String) (e : Env) : String :=
  let hash_input := query ++ toString e.block_timestamp ++ e.predecessor_account_id
  bs58Encode (sha256 (strBytes hash_input))

/-- Mirrors `submit_semantic_analysis`; returns the analysis id together
with the updated contract state. -/
def submit_semantic_analysis (self : SemanticGuardContract) (e : Env)
    (query : String) (results : List SearchResult)
    (semantic_analysis : SemanticAnalysisResult) (metadata : AnalysisMetadata) :
    String × SemanticGuardContract :=
  let analysis_id := generate_analysis_id query e
  let record : SemanticGuardRecord :=
    { id := analysis_id
      query := query
      results := results
      semantic_analysis := semantic_analysis
      submitter := e.predecessor_account_id
      timestamp := e.block_timestamp
      block_height := e.block_index
      metadata := metadata }
  let cm := self.contract_metadata
  (analysis_id,
    { analyses := listInsert self.analyses analysis_id record
      contract_metadata := { cm with total_analyses := (cm.total_analyses + 1) % 2 ^ 64 } })

/-- Mirrors `get_semantic_analysis`. -/
def get_semantic_analysis (self : SemanticGuardContract) (analysis_id : String) :
    Option SemanticGuardRecord :=
  lookupKey self.analyses analysis_id

/-- The enumeration `self.analyses.values()` in the native order of the
store. -/
def values (self : SemanticGuardContract) : List SemanticGuardRecord :=
  self.analyses.map Prod.snd

/-- The severity comparison performed by the `matches!` expression inside
`get_high_risk_analyses`, written case by case exactly as in the source. -/
def outlierMatches (severity threshold : OutlierSeverity) : Bool :=
  match severity, threshold with
  | .Critical, _ => true
  | .High, .High => true
  | .High, .Medium => true
  | .High, .Low => true
  | .Medium, .Medium => true
  | .Medium, .Low => true
  | .Low, .Low => true
  | _, _ => false

/-- Mirrors `get_high_risk_analyses`. -/
def get_high_risk_analyses (self : SemanticGuardContract)
    (severity_threshold : OutlierSeverity) : List SemanticGuardRecord :=
  (values self).filter (fun record =>
    record.semantic_analysis.outliers.any (fun outlier =>
      outlierMatches outlier.severity severity_threshold))

/-- The storage key built inline by `submit_demo_analysis`:
`format!("{}_{}_demo", prefix, identifier)`. -/
def demo_storage_key (pfx identifier : String) : String :=
  pfx ++ "_" ++ identifier ++ "_demo"

/-- The fixed placeholder record built by `submit_demo_analysis`; only the
storage key and the environment values vary. -/
def demo_record (storage_key : String) (e : Env) : SemanticGuardRecord :=
  { id := storage_key
    query := "Demo Query"
    results := []
    semantic_analysis :=
      { center_of_gravity := "A"
        outliers := []
        distance_matrix := []
        embeddings := []
        threshold_used := 0.75
        processing_time_ms := 100
        consensus_score := 0.95 }
    submitter := e.predecessor_account_id
    timestamp := e.block_timestamp
    block_height := e.block_index
    metadata :=
      { model_version := "demo"
        algorithm_version := "1.0"
        processing_node := "demo_node"
        verification_count := 0
        dispute_count := 0
        consensus_reached := true } }

/-- Mirrors `submit_demo_analysis`; the `analysis_data` argument is
accepted but never stored, exactly as in the source. -/
def submit_demo_analysis (self : SemanticGuardContract) (e : Env)
    (pfx identifier analysis_data : String) : String × SemanticGuardContract :=
  let storage_key := demo_storage_key pfx identifier
  let cm := self.contract_metadata
  (storage_key,
    { analyses := listInsert self.analyses storage_key (demo_record storage_key e)
      contract_metadata := { cm with total_analyses := (cm.total_analyses + 1) % 2 ^ 64 } })

/-- Mirrors `health_check`. -/
def health_check (self : SemanticGuardContract) : Bool := true

/-- Mirrors `get_contract_stats`. -/
def get_contract_stats (self : SemanticGuardContract) : ContractMetadata :=
  self.contract_metadata

/-- Mirrors `get_total_analyses`. -/
def get_total_analyses (self : SemanticGuardContract) : Nat :=
  self.contract_metadata.total_analyses

/-- Mirrors `get_recent_analyses`: collect the values, reverse, take
`limit`. -/
def get_recent_analyses (self : SemanticGuardContract) (limit : Nat) :
    List SemanticGuardRecord :=
  ((values self).reverse).take limit

/-! ## Submission sequences (for counter claims) -/

/-- One successful submission call: either entry point with its inputs and
the environment seen by that call. -/
inductive SubmitOp where
  | semantic (e : Env) (query : String) (results : List SearchResult)
      (semantic_analysis : SemanticAnalysisResult) (metadata : AnalysisMetadata)
  | demo (e : Env) (pfx identifier analysis_data : String)

/-- Apply one submission call to the state. -/
def applyOp (s : SemanticGuardContract) : SubmitOp → SemanticGuardContract
  | .semantic e q r a m => (submit_semantic_analysis s e q r a m).2
  | .demo e p i d => (submit_demo_analysis s e p i d).2

/-- Apply a sequence of submission calls from left to right. -/
def applyOps (s : SemanticGuardContract) (ops : List SubmitOp) : SemanticGuardContract :=
  ops.foldl applyOp s

end SemanticGuard

namespace SemanticGuard

/-! ## Helper lemmas -/

/-- Looking up the key just inserted returns the inserted record. -/
theorem lookupKey_listInsert (l : List (String × SemanticGuardRecord)) (k : String)
    (v : SemanticGuardRecord) : lookupKey (listInsert l k v) k = some v := by
  induction l with
  | nil => simp [listInsert, lookupKey]
  | cons p rest ih =>
    obtain ⟨k2, v2⟩ := p
    by_cases h : k2 = k
    · simp [listInsert, lookupKey, h]
    · simp [listInsert, lookupKey, h, ih]

/-- The case analysis in `get_high_risk_analyses` is exactly the rank
comparison of the spec: the outlier severity rank is at least the
threshold rank. -/
def specRank : OutlierSeverity → Nat
  | .Low => 1
  | .Medium => 2
  | .High => 3
  | .Critical => 4

theorem outlierMatches_eq_rank (sev t : OutlierSeverity) :
    outlierMatches sev t = decide (specRank t ≤ specRank sev) := by
  cases sev <;> cases t <;> rfl

/-! ## Sample data used by concrete instances -/

def sampleMetadata : AnalysisMetadata :=
  { model_version := "1.0"
    algorithm_version := "1.0"
    processing_node := "node1"
    verification_count := 0
    dispute_count := 0
    consensus_reached := false }

/-- An analysis payload with a single outlier of the given severity. -/
def sampleAnalysis (sev : OutlierSeverity) : SemanticAnalysisResult :=
  { center_of_gravity := "A"
    outliers :=
      [{ result_id := "B"
         reason := "far from center"
         severity := sev
         max_distance := 2
         source_type := "web"
         verification_status := .Pending
         outlier_distances := [] }]
    distance_matrix := []
    embeddings := []
    threshold_used := 0.75
    processing_time_ms := 10
    consensus_score := 0.9 }

/-- A stored record with a single outlier of the given severity. -/
def sampleRecord (name : String) (sev : OutlierSeverity) : SemanticGuardRecord :=
  { id := name
    query := "q"
    results := []
    semantic_analysis := sampleAnalysis sev
    submitter := "alice.near"
    timestamp := 1
    block_height := 1
    metadata := sampleMetadata }

/-- A state holding three records whose single outliers have severities
Low, Medium, Critical, in the native enumeration order of the store. -/
def threeRecordState : SemanticGuardContract :=
  { analyses :=
      [("low", sampleRecord "low" .Low),
       ("med", sampleRecord "med" .Medium),
       ("crit", sampleRecord "crit" .Critical)]
    contract_metadata :=
      { version := "1.0.0"
        total_analyses := 3
        total_staked := 0
        consensus_threshold := 0.75 } }

/-! ## Claim theorems -/

/-- C9: `new` produces an empty record container and the aggregate
metadata `{version: "1.0.0", total_analyses: 0, total_staked: 0,
consensus_threshold: 0.75}`. -/
theorem new_initial_state :
    SemanticGuardContract.new.analyses = []
  ∧ SemanticGuardContract.new.contract_metadata =
      { version := "1.0.0"
        total_analyses := 0
        total_staked := 0
        consensus_threshold := 0.75 } :=
  ⟨rfl, rfl⟩

/-- C1: `get_high_risk_analyses t` returns exactly the stored records
having at least one outlier whose severity rank (Low=1, Medium=2, High=3,
Critical=4) is at least the rank of `t`, in the native enumeration order
of the store; on three records with single outliers Low, Medium,
Critical, the Medium query returns the Medium and Critical records, the
Low query all three, and the Critical query exactly the Critical one. -/
theorem get_high_risk_analyses_rank_spec :
    (∀ (s : SemanticGuardContract) (t : OutlierSeverity),
      get_high_risk_analyses s t = (values s).filter (fun r =>
        r.semantic_analysis.outliers.any (fun o => specRank t ≤ specRank o.severity)))
  ∧ get_high_risk_analyses threeRecordState .Medium =
      [sampleRecord "med" .Medium, sampleRecord "crit" .Critical]
  ∧ get_high_risk_analyses threeRecordState .Low =
      [sampleRecord "low" .Low, sampleRecord "med" .Medium, sampleRecord "crit" .Critical]
  ∧ get_high_risk_analyses threeRecordState .Critical =
      [sampleRecord "crit" .Critical] := by
  refine ⟨fun s t => ?_, rfl, rfl, rfl⟩
  simp only [get_high_risk_analyses, outlierMatches_eq_rank]

/-- C3: after `submit_semantic_analysis` returns id `X`, looking up `X`
returns a record whose query, results, semantic_analysis and metadata
fields are the inputs verbatim, and whose submitter, timestamp and
block_height are the environment values of the submitting call. -/
theorem submit_then_get_roundtrip (s : SemanticGuardContract) (e : Env)
    (q : String) (r : List SearchResult) (a : SemanticAnalysisResult)
    (m : AnalysisMetadata) :
    get_semantic_analysis (submit_semantic_analysis s e q r a m).2
        (submit_semantic_analysis s e q r a m).1 =
      some { id := (submit_semantic_analysis s e q r a m).1
             query := q
             results := r
             semantic_analysis := a
             submitter := e.predecessor_account_id
             timestamp := e.block_timestamp
             block_height := e.block_index
             metadata := m } := by
  simp [submit_semantic_analysis, get_semantic_analysis, lookupKey_listInsert]

/-- C5: the identifier generator is a deterministic function of the query,
the block timestamp and the caller identity: two evaluations agreeing on
those three inputs yield identical identifier strings (no salt or
per-call nonce; the block height and anything else is not read). -/
theorem generate_analysis_id_deterministic (q1 q2 : String) (e1 e2 : Env)
    (hq : q1 = q2) (ht : e1.block_timestamp = e2.block_timestamp)
    (hs : e1.predecessor_account_id = e2.predecessor_account_id) :
    generate_analysis_id q1 e1 = generate_analysis_id q2 e2 := by
  simp [generate_analysis_id, hq, ht, hs]

theorem generate_analysis_id_deterministic_witness :
    (("tq" : String) = "tq"
      ∧ (Env.mk "alice.near" 5 1).block_timestamp = (Env.mk "alice.near" 5 2).block_timestamp
      ∧ (Env.mk "alice.near" 5 1).predecessor_account_id
          = (Env.mk "alice.near" 5 2).predecessor_account_id)
  ∧ generate_analysis_id "tq" (Env.mk "alice.near" 5 1)
      = generate_analysis_id "tq" (Env.mk "alice.near" 5 2) :=
  ⟨⟨rfl, rfl, rfl⟩,
    generate_analysis_id_deterministic "tq" "tq" (Env.mk "alice.near" 5 1)
      (Env.mk "alice.near" 5 2) rfl rfl rfl⟩

/-- C7: `submit_semantic_analysis` has no validation and no error branch:
for every input, including an empty query and empty results, it returns
the derived identifier and a record is stored under it. -/
theorem submit_semantic_analysis_total (s : SemanticGuardContract) (e : Env)
    (q : String) (r : List SearchResult) (a : SemanticAnalysisResult)
    (m : AnalysisMetadata) :
    (submit_semantic_analysis s e q r a m).1 = generate_analysis_id q e
  ∧ (get_semantic_analysis (submit_semantic_analysis s e q r a m).2
      (submit_semantic_analysis s e q r a m).1).isSome = true := by
  refine ⟨rfl, ?_⟩
  simp [submit_semantic_analysis, get_semantic_analysis, lookupKey_listInsert]

/-- C6: `get_recent_analyses 0` is empty; with `limit` at least the store
size it is exactly the reverse of the native enumeration order; in
general it is the first `limit` elements of that reversed enumeration. -/
theorem get_recent_analyses_reverse_take (s : SemanticGuardContract) (limit : Nat) :
    get_recent_analyses s 0 = []
  ∧ ((values s).length ≤ limit → get_recent_analyses s limit = (values s).reverse)
  ∧ get_recent_analyses s limit = ((values s).reverse).take limit := by
  refine ⟨rfl, fun h => ?_, rfl⟩
  unfold get_recent_analyses
  apply List.take_of_length_le
  simpa using h

theorem get_recent_analyses_reverse_take_witness :
    (values threeRecordState).length ≤ 5
  ∧ get_recent_analyses threeRecordState 5 = (values threeRecordState).reverse :=
  ⟨by decide, (get_recent_analyses_reverse_take threeRecordState 5).2.1 (by decide)⟩

end SemanticGuard

namespace SemanticGuard

/-! ## Counting entries under a key -/

theorem countKey_cons (k2 : String) (v2 : SemanticGuardRecord)
    (rest : List (String × SemanticGuardRecord)) (k : String) :
    countKey ((k2, v2) :: rest) k = (if k2 = k then 1 else 0) + countKey rest k := by
  by_cases h : k2 = k <;> simp [countKey, List.filter_cons, h] <;> omega

theorem countKey_le_one_of_nodup (l : List (String × SemanticGuardRecord))
    (k : String) (h : (l.map Prod.fst).Nodup) : countKey l k ≤ 1 := by
  induction l with
  | nil => simp [countKey]
  | cons p rest ih =>
    obtain ⟨k2, v2⟩ := p
    simp only [List.map_cons, List.nodup_cons] at h
    rw [countKey_cons]
    by_cases hk : k2 = k
    · subst hk
      have h0 : countKey rest k2 = 0 := by
        have : rest.filter (fun p => decide (p.1 = k2)) = [] := by
          rw [List.filter_eq_nil_iff]
          intro a ha
          simp only [decide_eq_true_eq]
          intro heq
          exact h.1 (heq ▸ List.mem_map_of_mem Prod.fst ha)
        simp [countKey, this]
      simp [h0]
    · simp only [if_neg hk, Nat.zero_add]
      exact ih h.2

theorem countKey_listInsert_eq_one (l : List (String × SemanticGuardRecord))
    (k : String) (v : SemanticGuardRecord) (h : countKey l k ≤ 1) :
    countKey (listInsert l k v) k = 1 := by
  induction l with
  | nil => simp [listInsert, countKey]
  | cons p rest ih =>
    obtain ⟨k2, v2⟩ := p
    rw [countKey_cons] at h
    by_cases hk : k2 = k
    · rw [if_pos hk] at h
      have h0 : countKey rest k = 0 := by omega
      simp [listInsert, hk, countKey_cons, h0]
    · rw [if_neg hk, Nat.zero_add] at h
      simp [listInsert, hk, countKey_cons, ih h]

/-- After an upsert the key is stored with multiplicity exactly one,
provided the store held it at most once before (in particular on any
state whose keys are distinct). -/
theorem countKey_listInsert_of_nodup (l : List (String × SemanticGuardRecord))
    (k : String) (v : SemanticGuardRecord) (h : (l.map Prod.fst).Nodup) :
    countKey (listInsert l k v) k = 1 :=
  countKey_listInsert_eq_one l k v (countKey_le_one_of_nodup l k h)

/-! ## Counter lemmas -/

/-- Both submission entry points advance the counter by the same modular
increment. -/
theorem applyOp_total (s : SemanticGuardContract) (op : SubmitOp) :
    (applyOp s op).contract_metadata.total_analyses
      = (s.contract_metadata.total_analyses + 1) % 2 ^ 64 := by
  cases op <;> rfl

theorem applyOps_total (ops : List SubmitOp) (s : SemanticGuardContract)
    (h : s.contract_metadata.total_analyses < 2 ^ 64) :
    (applyOps s ops).contract_metadata.total_analyses
      = (s.contract_metadata.total_analyses + ops.length) % 2 ^ 64 := by
  induction ops generalizing s with
  | nil =>
    simp only [applyOps, List.foldl_nil, List.length_nil, Nat.add_zero]
    exact (Nat.mod_eq_of_lt h).symm
  | cons op rest ih =>
    have hlt : (applyOp s op).contract_metadata.total_analyses < 2 ^ 64 := by
      rw [applyOp_total]
      exact Nat.mod_lt _ (by norm_num)
    calc (applyOps s (op :: rest)).contract_metadata.total_analyses
        = (applyOps (applyOp s op) rest).contract_metadata.total_analyses := rfl
      _ = ((applyOp s op).contract_metadata.total_analyses + rest.length) % 2 ^ 64 :=
          ih (applyOp s op) hlt
      _ = ((s.contract_metadata.total_analyses + 1) % 2 ^ 64 + rest.length) % 2 ^ 64 := by
          rw [applyOp_total]
      _ = (s.contract_metadata.total_analyses + 1 + rest.length) % 2 ^ 64 := by
          rw [Nat.mod_add_mod]
      _ = (s.contract_metadata.total_analyses + (op :: rest).length) % 2 ^ 64 := by
          rw [List.length_cons]
          congr 1
          omega

/-- A fixed concrete demo submission used by concrete instances. -/
def demoOp : SubmitOp :=
  SubmitOp.demo (Env.mk "alice.near" 111 7) "semantic_guard" "demo_test" "payload"

/-! ## Claim theorems (continued) -/

/-- C4: starting from `new`, after any sequence of N successful
submission calls (either entry point, in any mix) the total counter
equals N, even when identifiers collide; the store itself may then hold
fewer than N records, as the two colliding demo calls show. -/
theorem total_analyses_counts_submissions :
    (∀ ops : List SubmitOp, ops.length < 2 ^ 64 →
      get_total_analyses (applyOps SemanticGuardContract.new ops) = ops.length)
  ∧ (applyOps SemanticGuardContract.new [demoOp, demoOp]).analyses.length = 1
  ∧ get_total_analyses (applyOps SemanticGuardContract.new [demoOp, demoOp]) = 2 := by
  refine ⟨fun ops h => ?_, rfl, rfl⟩
  unfold get_total_analyses
  rw [applyOps_total ops SemanticGuardContract.new (by norm_num [SemanticGuardContract.new])]
  show (0 + ops.length) % 2 ^ 64 = ops.length
  rw [Nat.zero_add]
  exact Nat.mod_eq_of_lt h

theorem total_analyses_counts_submissions_witness :
    ([demoOp, demoOp] : List SubmitOp).length < 2 ^ 64
  ∧ get_total_analyses (applyOps SemanticGuardContract.new [demoOp, demoOp])
      = ([demoOp, demoOp] : List SubmitOp).length :=
  ⟨by decide, total_analyses_counts_submissions.1 [demoOp, demoOp] (by decide)⟩

/-- C8: both submission entry points leave version, total_staked and
consensus_threshold unchanged and move only the total_analyses counter,
by exactly +1 (read operations are pure functions of the state and
return no new state in this embedding). -/
theorem submission_metadata_frame (s : SemanticGuardContract) (op : SubmitOp) :
    (applyOp s op).contract_metadata.version = s.contract_metadata.version
  ∧ (applyOp s op).contract_metadata.total_staked = s.contract_metadata.total_staked
  ∧ (applyOp s op).contract_metadata.consensus_threshold
      = s.contract_metadata.consensus_threshold
  ∧ (s.contract_metadata.total_analyses + 1 < 2 ^ 64 →
      (applyOp s op).contract_metadata.total_analyses
        = s.contract_metadata.total_analyses + 1) := by
  refine ⟨by cases op <;> rfl, by cases op <;> rfl, by cases op <;> rfl, fun h => ?_⟩
  rw [applyOp_total]
  exact Nat.mod_eq_of_lt h

theorem submission_metadata_frame_witness :
    SemanticGuardContract.new.contract_metadata.total_analyses + 1 < 2 ^ 64
  ∧ (applyOp SemanticGuardContract.new demoOp).contract_metadata.total_analyses
      = SemanticGuardContract.new.contract_metadata.total_analyses + 1 :=
  ⟨by decide, (submission_metadata_frame SemanticGuardContract.new demoOp).2.2.2 (by decide)⟩

/-- C2: two `submit_demo_analysis` calls with the same pair of key arguments
leave exactly one entry under the derived key, holding the record of the
second call, while the total counter advances by 2. -/
theorem submit_demo_analysis_overwrite (s : SemanticGuardContract) (e1 e2 : Env)
    (pfx seed d1 d2 : String)
    (hkeys : (s.analyses.map Prod.fst).Nodup)
    (htot : s.contract_metadata.total_analyses + 2 < 2 ^ 64) :
    countKey ((submit_demo_analysis
        (submit_demo_analysis s e1 pfx seed d1).2 e2 pfx seed d2).2).analyses
        (demo_storage_key pfx seed) = 1
  ∧ get_semantic_analysis
        ((submit_demo_analysis (submit_demo_analysis s e1 pfx seed d1).2 e2 pfx seed d2).2)
        (demo_storage_key pfx seed)
      = some (demo_record (demo_storage_key pfx seed) e2)
  ∧ ((submit_demo_analysis
        (submit_demo_analysis s e1 pfx seed d1).2 e2 pfx seed d2).2).contract_metadata.total_analyses
      = s.contract_metadata.total_analyses + 2 := by
  refine ⟨?_, ?_, ?_⟩
  · show countKey
        (listInsert (listInsert s.analyses (demo_storage_key pfx seed)
          (demo_record (demo_storage_key pfx seed) e1)) (demo_storage_key pfx seed)
          (demo_record (demo_storage_key pfx seed) e2)) (demo_storage_key pfx seed) = 1
    exact countKey_listInsert_eq_one _ _ _
      (Nat.le_of_eq (countKey_listInsert_of_nodup _ _ _ hkeys))
  · show lookupKey
        (listInsert (listInsert s.analyses (demo_storage_key pfx seed)
          (demo_record (demo_storage_key pfx seed) e1)) (demo_storage_key pfx seed)
          (demo_record (demo_storage_key pfx seed) e2)) (demo_storage_key pfx seed)
      = some (demo_record (demo_storage_key pfx seed) e2)
    exact lookupKey_listInsert _ _ _
  · show ((s.contract_metadata.total_analyses + 1) % 2 ^ 64 + 1) % 2 ^ 64
      = s.contract_metadata.total_analyses + 2
    rw [Nat.mod_add_mod]
    exact Nat.mod_eq_of_lt (by omega)

theorem submit_demo_analysis_overwrite_witness :
    ((SemanticGuardContract.new.analyses.map Prod.fst).Nodup
      ∧ SemanticGuardContract.new.contract_metadata.total_analyses + 2 < 2 ^ 64)
  ∧ ((submit_demo_analysis
        (submit_demo_analysis SemanticGuardContract.new (Env.mk "alice.near" 111 7)
          "semantic_guard" "demo_test" "x").2
        (Env.mk "bob.near" 222 9) "semantic_guard" "demo_test" "y").2).contract_metadata.total_analyses
      = SemanticGuardContract.new.contract_metadata.total_analyses + 2 :=
  ⟨⟨by decide, by decide⟩,
    (submit_demo_analysis_overwrite SemanticGuardContract.new
      (Env.mk "alice.near" 111 7) (Env.mk "bob.near" 222 9)
      "semantic_guard" "demo_test" "x" "y" (by decide) (by decide)).2.2⟩

/-- Environments for the key-collision instance. -/
def envA : Env := Env.mk "alice.near" 111 7

def envB : Env := Env.mk "bob.near" 222 9

/-- C10: the demo storage-key derivation is not injective: the distinct
argument pairs ("a", "b_c") and ("a_b", "c") derive the same key
"a_b_c_demo", and the later call silently overwrites the record of the
earlier one (the surviving record carries the timestamp of the second call
and the store holds a single entry). -/
theorem demo_storage_key_not_injective :
    (("a", "b_c") : String × String) ≠ ("a_b", "c")
  ∧ demo_storage_key "a" "b_c" = demo_storage_key "a_b" "c"
  ∧ (get_semantic_analysis
        (submit_demo_analysis (submit_demo_analysis SemanticGuardContract.new envA "a" "b_c" "d1").2
          envB "a_b" "c" "d2").2
        (demo_storage_key "a" "b_c")).map SemanticGuardRecord.timestamp
      = some envB.block_timestamp
  ∧ ((submit_demo_analysis (submit_demo_analysis SemanticGuardContract.new envA "a" "b_c" "d1").2
        envB "a_b" "c" "d2").2).analyses.length = 1 :=
  ⟨by decide, rfl, rfl, rfl⟩

end SemanticGuard
